import Mathlib

/-!
Verification of the link-verification orchestration engine
(`src/verify/mod.rs` of marxin/linkcheck): the `Verifier` capability,
the cache-aware dispatcher `verify_one`, the parallel orchestrator
`verify`, and the `Outcome` aggregate with its `merge` operation.

Shallow embedding: `Link`, `Location` are concrete stand-ins for the
external collaborator types (only `Link.href` is inspected by the
engine); `Cache` is the lookup function behind the `Cache` trait;
`Verifier` is the function type of the blanket
`impl<F: Fn(&Link, &dyn Cache) -> ValidationResult> Verifier for F`.
The rayon pipeline (par_bridge / map / fold / reduce) is modelled by
an explicit per-chunk fold plus a pairwise reduction over an arbitrary
split of the input into chunks.
-/

namespace Linkcheck

/-- Stand-in for the external `Location` collaborator type: provenance
metadata carried through unchanged, never inspected by the engine. -/
structure Location where
  id : Nat
deriving DecidableEq

/-- Stand-in for the external `Link` collaborator type: the engine only
uses its `href()` string identity for cache lookups. -/
structure Link where
  href : String
deriving DecidableEq

/-- The `Cache` trait seen from the engine: `is_valid(key) -> Option<bool>`. -/
def Cache : Type := String → Option Bool

/-- `Cache::is_valid`. -/
def Cache.is_valid (c : Cache) (key : String) : Option Bool := c key

/-- `ValidationResult`: the closed three-state classification. -/
inductive ValidationResult where
  | Valid
  | Unsupported
  | Ignored
deriving DecidableEq

/-- A verifier, via the structural blanket impl: any function
`(&Link, &dyn Cache) -> ValidationResult` is a `Verifier`. -/
def Verifier : Type := Link → Cache → ValidationResult

/-- The capability method of the blanket `impl<F> Verifier for F`:
`fn verify(&self, link, cache) { self(link, cache) }`. -/
def Verifier.verify (f : Verifier) (link : Link) (cache : Cache) :
    ValidationResult :=
  f link cache

/-- The `for verifier in verifiers { match verifier.verify(link, cache) ... }`
loop of `verify_one`: try each verifier in order, skip `Unsupported`,
return the first decisive answer, `Unsupported` on exhaustion. -/
def verifyChain (link : Link) (cache : Cache) :
    List Verifier → ValidationResult
  | [] => ValidationResult.Unsupported
  | v :: rest =>
    match v.verify link cache with
    | ValidationResult.Unsupported => verifyChain link cache rest
    | other => other

/-- `verify_one`: cache phase (`cache.is_valid(link.href()).unwrap_or(false)`)
then the verifier chain. -/
def verify_one (link : Link) (verifiers : List Verifier) (cache : Cache) :
    ValidationResult :=
  if (cache.is_valid link.href).getD false then ValidationResult.Valid
  else verifyChain link cache verifiers

/-- Instrumented verifier chain: same recursion as `verifyChain`, also
counting how many verifiers are invoked. -/
def chainCount (link : Link) (cache : Cache) :
    List Verifier → ValidationResult × Nat
  | [] => (ValidationResult.Unsupported, 0)
  | v :: rest =>
    match v.verify link cache with
    | ValidationResult.Unsupported =>
      let r := chainCount link cache rest
      (r.1, r.2 + 1)
    | other => (other, 1)

/-- Instrumented `verify_one`: result together with the number of cache
lookups performed and the number of verifier invocations made. -/
def verifyOneCount (link : Link) (verifiers : List Verifier) (cache : Cache) :
    ValidationResult × Nat × Nat :=
  if (cache.is_valid link.href).getD false then (ValidationResult.Valid, 1, 0)
  else
    let r := chainCount link cache verifiers
    (r.1, 1, r.2)

theorem chainCount_fst (link : Link) (cache : Cache) (vs : List Verifier) :
    (chainCount link cache vs).1 = verifyChain link cache vs := by
  induction vs with
  | nil => rfl
  | cons v rest ih =>
    simp only [chainCount, verifyChain]
    cases h : v.verify link cache <;> simp [h, ih]

theorem verifyOneCount_fst (link : Link) (vs : List Verifier) (cache : Cache) :
    (verifyOneCount link vs cache).1 = verify_one link vs cache := by
  unfold verifyOneCount verify_one
  by_cases h : (cache.is_valid link.href).getD false = true
  · simp [h]
  · simp [h, chainCount_fst]

/-- Modelled from the spec: the source declares
`pub struct Outcome {}` with `Outcome::merge` and `Outcome::with_result`
left `unimplemented!()`; the spec defines the required contract — an
Outcome is conceptually a multiset of (Location, Link, ValidationResult)
triples with an associative, commutative merge whose identity is the
default (empty) Outcome. -/
abbrev Outcome : Type := Multiset (Location × Link × ValidationResult)

/-- Modelled from the spec: the fresh empty Outcome (`Outcome::default`). -/
def Outcome.default : Outcome := 0

/-- Modelled from the spec: `Outcome::with_result` folds one classified
(location, link, result) triple into the aggregate. -/
def Outcome.with_result (o : Outcome) (location : Location) (link : Link)
    (result : ValidationResult) : Outcome :=
  (location, link, result) ::ₘ o

/-- Modelled from the spec: `Outcome::merge` combines two partial
Outcomes (multiset union). -/
def Outcome.merge (left right : Outcome) : Outcome := left + right

/-- One rayon fold step sequence: a worker folds the (location, link,
result) triples it claimed into a private partial Outcome, starting from
`Outcome::default`, via `Outcome::with_result`. -/
def foldChunk (chunk : List (Location × Link × ValidationResult)) : Outcome :=
  chunk.foldl (fun o t => o.with_result t.1 t.2.1 t.2.2) Outcome.default

/-- The rayon `reduce(Outcome::default, Outcome::merge)` step combining
the per-worker partial Outcomes pairwise. -/
def reduceOutcomes (parts : List Outcome) : Outcome :=
  parts.foldr Outcome.merge Outcome.default

/-- The classifying map of `verify`:
`(location, link) -> (location, link, verify_one(&link, verifiers, cache))`. -/
def classify (verifiers : List Verifier) (cache : Cache)
    (p : Location × Link) : Location × Link × ValidationResult :=
  (p.1, p.2, verify_one p.2 verifiers cache)

/-- `verify`: map every (location, link) pair through `verify_one` and
collect the triples into an Outcome (here as the canonical single-chunk
fold; scheduling-independence over arbitrary chunk splits is proved
separately). -/
def verify (links : List (Location × Link)) (verifiers : List Verifier)
    (cache : Cache) : Outcome :=
  foldChunk (links.map (classify verifiers cache))

/-- `verify` as rayon executes it under a given work split: the mapped
input is split into chunks, each chunk is folded by a worker, and the
partial Outcomes are reduced with `Outcome::merge`. -/
def verifyScheduled (chunks : List (List (Location × Link)))
    (verifiers : List Verifier) (cache : Cache) : Outcome :=
  reduceOutcomes (chunks.map (fun ch => foldChunk (ch.map (classify verifiers cache))))

/-- Instrumented sequential `verify`: outcome together with the total
number of cache lookups, verifier invocations and fold steps performed. -/
def verifyInstr (links : List (Location × Link)) (verifiers : List Verifier)
    (cache : Cache) : Outcome × Nat × Nat × Nat :=
  links.foldl
    (fun acc p =>
      let r := verifyOneCount p.2 verifiers cache
      (acc.1.with_result p.1 p.2 r.1, acc.2.1 + r.2.1, acc.2.2.1 + r.2.2,
        acc.2.2.2 + 1))
    (Outcome.default, 0, 0, 0)

theorem foldChunk_eq_coe (chunk : List (Location × Link × ValidationResult)) :
    foldChunk chunk = (chunk : Multiset (Location × Link × ValidationResult)) := by
  have key : ∀ (l : List (Location × Link × ValidationResult))
      (acc : Multiset (Location × Link × ValidationResult)),
      l.foldl (fun o t => (t.1, t.2.1, t.2.2) ::ₘ o) acc = acc + l := by
    intro l
    induction l with
    | nil => intro acc; simp
    | cons t ts ih =>
      intro acc
      have ht : (t.1, t.2.1, t.2.2) = t := rfl
      simp only [List.foldl_cons, ih, ht, ← Multiset.cons_coe,
        Multiset.add_cons, Multiset.cons_add]
  unfold foldChunk Outcome.with_result Outcome.default
  rw [key]
  simp

theorem chain_all_unsupported (link : Link) (cache : Cache)
    (vs : List Verifier)
    (hall : ∀ v ∈ vs, v.verify link cache = ValidationResult.Unsupported) :
    verifyChain link cache vs = ValidationResult.Unsupported := by
  induction vs with
  | nil => rfl
  | cons v rest ih =>
    have hv : v.verify link cache = ValidationResult.Unsupported :=
      hall v (List.mem_cons_self v rest)
    have hrest : ∀ v' ∈ rest, v'.verify link cache = ValidationResult.Unsupported :=
      fun v' hv' => hall v' (List.mem_cons_of_mem v hv')
    simp only [verifyChain, hv]
    exact ih hrest

theorem not_known_valid_getD (c : Option Bool) (hc : c ≠ some true) :
    c.getD false = false := by
  cases c with
  | none => rfl
  | some b => cases b with
    | false => rfl
    | true => exact absurd rfl hc

theorem chainCount_lt_iff (link : Link) (cache : Cache) (vs : List Verifier) :
    ∀ i : Nat, i < (chainCount link cache vs).2 ↔
      i < vs.length ∧
        ∀ v ∈ vs.take i, v.verify link cache = ValidationResult.Unsupported := by
  induction vs with
  | nil => intro i; simp [chainCount]
  | cons v rest ih =>
    intro i
    cases h : v.verify link cache with
    | Unsupported =>
      cases i with
      | zero => simp [chainCount, h]
      | succ j =>
        simp only [chainCount, h, List.length_cons, Nat.succ_lt_succ_iff,
          List.take_succ_cons, List.mem_cons, forall_eq_or_imp]
        rw [ih j]
        tauto
    | Valid =>
      cases i with
      | zero => simp [chainCount, h]
      | succ j =>
        simp only [chainCount, h]
        constructor
        · intro hlt; exact absurd hlt (by omega)
        · rintro ⟨_, hall⟩
          have := hall v (by simp [List.take_succ_cons])
          rw [h] at this
          exact absurd this (by simp)
    | Ignored =>
      cases i with
      | zero => simp [chainCount, h]
      | succ j =>
        simp only [chainCount, h]
        constructor
        · intro hlt; exact absurd hlt (by omega)
        · rintro ⟨_, hall⟩
          have := hall v (by simp [List.take_succ_cons])
          rw [h] at this
          exact absurd this (by simp)

theorem chain_first_decisive (link : Link) (cache : Cache)
    (vs : List Verifier) :
    ∀ (i : Nat) (h : i < vs.length),
      (∀ v ∈ vs.take i, v.verify link cache = ValidationResult.Unsupported) →
      vs[i].verify link cache ≠ ValidationResult.Unsupported →
      verifyChain link cache vs = vs[i].verify link cache ∧
        (chainCount link cache vs).2 = i + 1 := by
  induction vs with
  | nil => intro i h; exact absurd h (by simp)
  | cons v rest ih =>
    intro i h hall hdec
    cases i with
    | zero =>
      simp only [List.getElem_cons_zero] at hdec ⊢
      cases hv : v.verify link cache with
      | Unsupported => exact absurd hv hdec
      | Valid => exact ⟨by simp [verifyChain, hv], by simp [chainCount, hv]⟩
      | Ignored => exact ⟨by simp [verifyChain, hv], by simp [chainCount, hv]⟩
    | succ j =>
      have hv : v.verify link cache = ValidationResult.Unsupported :=
        hall v (by simp [List.take_succ_cons])
      have hj : j < rest.length := by simpa using h
      have hall' : ∀ v' ∈ rest.take j,
          v'.verify link cache = ValidationResult.Unsupported :=
        fun v' hv' => hall v' (by simp [List.take_succ_cons, hv'])
      have hdec' : rest[j].verify link cache ≠ ValidationResult.Unsupported := by
        simpa using hdec
      obtain ⟨h1, h2⟩ := ih j hj hall' hdec'
      refine ⟨?_, ?_⟩
      · simpa [verifyChain, hv] using h1
      · simp only [chainCount, hv]
        simpa using h2

/-- C3: if the cache affirmatively reports known-valid for the link's
href, `verify_one` returns `Valid` and zero verifiers are invoked. -/
theorem cache_short_circuit (link : Link) (vs : List Verifier) (cache : Cache)
    (h : cache.is_valid link.href = some true) :
    verify_one link vs cache = ValidationResult.Valid ∧
      (verifyOneCount link vs cache).2.2 = 0 := by
  constructor
  · unfold verify_one
    simp [h]
  · unfold verifyOneCount
    simp [h]

theorem cache_short_circuit_witness :
    Cache.is_valid (fun _ => some true) (Link.mk "a").href = some true ∧
      (verify_one (Link.mk "a")
          [(fun _ _ => ValidationResult.Ignored : Verifier)]
          (fun _ => some true) = ValidationResult.Valid ∧
        (verifyOneCount (Link.mk "a")
            [(fun _ _ => ValidationResult.Ignored : Verifier)]
            (fun _ => some true)).2.2 = 0) :=
  ⟨rfl, cache_short_circuit (Link.mk "a")
    [(fun _ _ => ValidationResult.Ignored : Verifier)]
    (fun _ => some true) rfl⟩

/-- C4: when the cache does not report known-valid, verifier `i` is
invoked exactly when every verifier before it returned `Unsupported`
(and `i` is within the list), and the first verifier returning a
decisive answer determines the result, with exactly `i + 1` verifiers
having been invoked (no later verifier runs). -/
theorem verifier_chain_order (link : Link) (vs : List Verifier)
    (cache : Cache)
    (hc : (cache.is_valid link.href).getD false = false) :
    (∀ i : Nat, i < (verifyOneCount link vs cache).2.2 ↔
        i < vs.length ∧
          ∀ v ∈ vs.take i, v.verify link cache = ValidationResult.Unsupported) ∧
    (∀ (i : Nat) (h : i < vs.length),
        (∀ v ∈ vs.take i, v.verify link cache = ValidationResult.Unsupported) →
        vs[i].verify link cache ≠ ValidationResult.Unsupported →
        verify_one link vs cache = vs[i].verify link cache ∧
          (verifyOneCount link vs cache).2.2 = i + 1) := by
  have hcount : (verifyOneCount link vs cache).2.2 =
      (chainCount link cache vs).2 := by
    unfold verifyOneCount
    simp [hc]
  have hres : verify_one link vs cache = verifyChain link cache vs := by
    unfold verify_one
    simp [hc]
  constructor
  · intro i
    rw [hcount]
    exact chainCount_lt_iff link cache vs i
  · intro i h hall hdec
    obtain ⟨h1, h2⟩ := chain_first_decisive link cache vs i h hall hdec
    rw [hcount, hres]
    exact ⟨h1, h2⟩

theorem verifier_chain_order_witness :
    ((Cache.is_valid (fun _ => none) (Link.mk "a").href).getD false = false) ∧
      (verify_one (Link.mk "a")
          [(fun _ _ => ValidationResult.Unsupported : Verifier),
            (fun _ _ => ValidationResult.Ignored : Verifier),
            (fun _ _ => ValidationResult.Valid : Verifier)]
          (fun _ => none) = ValidationResult.Ignored ∧
        (verifyOneCount (Link.mk "a")
            [(fun _ _ => ValidationResult.Unsupported : Verifier),
              (fun _ _ => ValidationResult.Ignored : Verifier),
              (fun _ _ => ValidationResult.Valid : Verifier)]
            (fun _ => none)).2.2 = 2) :=
  ⟨rfl,
    (verifier_chain_order (Link.mk "a")
        [(fun _ _ => ValidationResult.Unsupported : Verifier),
          (fun _ _ => ValidationResult.Ignored : Verifier),
          (fun _ _ => ValidationResult.Valid : Verifier)]
        (fun _ => none) rfl).2 1 (by simp)
      (by
        intro v hv
        simp only [List.take_succ_cons, List.take_zero, List.mem_singleton] at hv
        subst hv
        rfl)
      (by
        intro hcontra
        simp only [List.getElem_cons_succ, List.getElem_cons_zero] at hcontra
        exact absurd hcontra (by decide))⟩

/-- C5: if the cache does not report known-valid and every verifier
returns `Unsupported` (including the empty verifier list), `verify_one`
returns `Unsupported`. -/
theorem exhaustion (link : Link) (vs : List Verifier) (cache : Cache)
    (hc : cache.is_valid link.href ≠ some true)
    (hall : ∀ v ∈ vs, v.verify link cache = ValidationResult.Unsupported) :
    verify_one link vs cache = ValidationResult.Unsupported := by
  unfold verify_one
  rw [not_known_valid_getD _ hc]
  simpa using chain_all_unsupported link cache vs hall

theorem exhaustion_witness :
    (Cache.is_valid (fun _ => none) (Link.mk "a").href ≠ some true) ∧
      verify_one (Link.mk "a") [] (fun _ => none) =
        ValidationResult.Unsupported :=
  ⟨by simp [Cache.is_valid],
    exhaustion (Link.mk "a") [] (fun _ => none) (by simp [Cache.is_valid])
      (by simp)⟩

/-- C6: a `some false` or `none` cache answer never short-circuits:
`verify_one` proceeds to the verifier chain in both cases. -/
theorem negative_cache_not_fatal (link : Link) (vs : List Verifier)
    (cache : Cache)
    (hc : cache.is_valid link.href = some false ∨
      cache.is_valid link.href = none) :
    verify_one link vs cache = verifyChain link cache vs := by
  unfold verify_one
  rcases hc with h | h <;> simp [h]

theorem negative_cache_not_fatal_witness :
    (Cache.is_valid (fun _ => some false) (Link.mk "a").href = some false ∨
      Cache.is_valid (fun _ => some false) (Link.mk "a").href = none) ∧
      verify_one (Link.mk "a")
          [(fun _ _ => ValidationResult.Valid : Verifier)]
          (fun _ => some false) =
        verifyChain (Link.mk "a") (fun _ => some false)
          [(fun _ _ => ValidationResult.Valid : Verifier)] :=
  ⟨Or.inl rfl,
    negative_cache_not_fatal (Link.mk "a")
      [(fun _ _ => ValidationResult.Valid : Verifier)]
      (fun _ => some false) (Or.inl rfl)⟩

/-- C7: the taxonomy is closed: `verify_one` always resolves to exactly
one of Valid, Unsupported, Ignored. -/
theorem closed_taxonomy (link : Link) (vs : List Verifier) (cache : Cache) :
    verify_one link vs cache = ValidationResult.Valid ∨
      verify_one link vs cache = ValidationResult.Unsupported ∨
      verify_one link vs cache = ValidationResult.Ignored := by
  cases h : verify_one link vs cache with
  | Valid => exact Or.inl rfl
  | Unsupported => exact Or.inr (Or.inl rfl)
  | Ignored => exact Or.inr (Or.inr rfl)

/-- C9: the Verifier abstraction is structural: any function of the
signature is a Verifier, and the capability method returns exactly the
plain call. -/
theorem structural_verifier (f : Link → Cache → ValidationResult)
    (link : Link) (cache : Cache) :
    Verifier.verify f link cache = f link cache := rfl

theorem verify_eq_map_coe (pairs : List (Location × Link))
    (vs : List Verifier) (cache : Cache) :
    verify pairs vs cache =
      Multiset.map (classify vs cache) (pairs : Multiset (Location × Link)) := by
  unfold verify
  rw [foldChunk_eq_coe]
  simp

theorem verify_append (l1 l2 : List (Location × Link)) (vs : List Verifier)
    (cache : Cache) :
    verify (l1 ++ l2) vs cache =
      Outcome.merge (verify l1 vs cache) (verify l2 vs cache) := by
  simp only [verify_eq_map_coe, Outcome.merge]
  rw [← Multiset.coe_add]
  simp

theorem verify_perm (l1 l2 : List (Location × Link)) (vs : List Verifier)
    (cache : Cache) (h : List.Perm l1 l2) :
    verify l1 vs cache = verify l2 vs cache := by
  simp only [verify_eq_map_coe]
  congr 1
  exact Multiset.coe_eq_coe.mpr h

theorem verifyScheduled_join (chunks : List (List (Location × Link)))
    (vs : List Verifier) (cache : Cache) :
    verifyScheduled chunks vs cache = verify chunks.flatten vs cache := by
  induction chunks with
  | nil => rfl
  | cons ch rest ih =>
    have step : verifyScheduled (ch :: rest) vs cache =
        Outcome.merge (verify ch vs cache) (verifyScheduled rest vs cache) := rfl
    rw [step, ih, List.flatten_cons, verify_append]

theorem countP_classify (vs : List Verifier) (cache : Cache)
    (loc : Location) (link : Link) (s : Multiset (Location × Link)) :
    Multiset.countP (fun t => t.1 = loc ∧ t.2.1 = link)
        (Multiset.map (classify vs cache) s) =
      Multiset.count (loc, link) s := by
  induction s using Multiset.induction with
  | empty => simp
  | cons p s ih =>
    rw [Multiset.map_cons, Multiset.countP_cons, Multiset.count_cons, ih]
    congr 1
    by_cases hp : p = (loc, link)
    · subst hp
      simp [classify]
    · have hne : ¬(p.1 = loc ∧ p.2 = link) := by
        intro hand
        exact hp (Prod.ext hand.1 hand.2)
      simp only [classify]
      rw [if_neg hne, if_neg (by simpa [eq_comm] using hp)]

/-- C1: the Outcome of `verify` contains exactly one (location, link,
result) triple per input pair — it is the multiset image of the input
under the classifying map, the per-pair multiplicity is preserved, and
the same Outcome arises under any split of the work into chunks folded
by workers and reduced with `Outcome::merge`. -/
theorem completeness (pairs : List (Location × Link)) (vs : List Verifier)
    (cache : Cache) :
    verify pairs vs cache =
        Multiset.map (classify vs cache) (pairs : Multiset (Location × Link)) ∧
      (∀ (loc : Location) (link : Link),
        Multiset.countP (fun t => t.1 = loc ∧ t.2.1 = link)
            (verify pairs vs cache) =
          Multiset.count (loc, link) (pairs : Multiset (Location × Link))) ∧
      (∀ chunks : List (List (Location × Link)), List.Perm chunks.flatten pairs →
        verifyScheduled chunks vs cache = verify pairs vs cache) := by
  refine ⟨verify_eq_map_coe pairs vs cache, ?_, ?_⟩
  · intro loc link
    rw [verify_eq_map_coe]
    exact countP_classify vs cache loc link _
  · intro chunks hperm
    rw [verifyScheduled_join]
    exact verify_perm _ _ vs cache hperm

theorem completeness_witness :
    (List.Perm
        [[(Location.mk 2, Link.mk "b")], [(Location.mk 1, Link.mk "a")]].flatten
        [(Location.mk 1, Link.mk "a"), (Location.mk 2, Link.mk "b")]) ∧
      verifyScheduled
          [[(Location.mk 2, Link.mk "b")], [(Location.mk 1, Link.mk "a")]]
          [(fun _ _ => ValidationResult.Valid : Verifier)] (fun _ => none) =
        verify [(Location.mk 1, Link.mk "a"), (Location.mk 2, Link.mk "b")]
          [(fun _ _ => ValidationResult.Valid : Verifier)] (fun _ => none) :=
  ⟨by decide,
    (completeness [(Location.mk 1, Link.mk "a"), (Location.mk 2, Link.mk "b")]
        [(fun _ _ => ValidationResult.Valid : Verifier)]
        (fun _ => none)).2.2
      [[(Location.mk 2, Link.mk "b")], [(Location.mk 1, Link.mk "a")]]
      (by decide)⟩

/-- C2: `Outcome::merge` is associative and commutative with the
default Outcome as identity, `verify` distributes over concatenation
through `merge`, and `verify` is invariant under permutation of the
input — so any grouping or order of merging partials over a partition
equals processing the whole sequence at once. -/
theorem merge_commutative_monoid :
    (∀ a b c : Outcome,
        Outcome.merge (Outcome.merge a b) c =
          Outcome.merge a (Outcome.merge b c)) ∧
      (∀ a b : Outcome, Outcome.merge a b = Outcome.merge b a) ∧
      (∀ a : Outcome,
        Outcome.merge Outcome.default a = a ∧
          Outcome.merge a Outcome.default = a) ∧
      (∀ (l1 l2 : List (Location × Link)) (vs : List Verifier) (cache : Cache),
        verify (l1 ++ l2) vs cache =
          Outcome.merge (verify l1 vs cache) (verify l2 vs cache)) ∧
      (∀ (l1 l2 : List (Location × Link)) (vs : List Verifier) (cache : Cache),
        List.Perm l1 l2 → verify l1 vs cache = verify l2 vs cache) := by
  refine ⟨?_, ?_, ?_, verify_append, verify_perm⟩
  · intro a b c
    exact add_assoc a b c
  · intro a b
    exact add_comm a b
  · intro a
    exact ⟨zero_add a, add_zero a⟩

theorem merge_commutative_monoid_witness :
    (List.Perm [(Location.mk 1, Link.mk "a"), (Location.mk 2, Link.mk "b")]
        [(Location.mk 2, Link.mk "b"), (Location.mk 1, Link.mk "a")]) ∧
      verify [(Location.mk 1, Link.mk "a"), (Location.mk 2, Link.mk "b")]
          [(fun _ _ => ValidationResult.Ignored : Verifier)] (fun _ => none) =
        verify [(Location.mk 2, Link.mk "b"), (Location.mk 1, Link.mk "a")]
          [(fun _ _ => ValidationResult.Ignored : Verifier)] (fun _ => none) :=
  ⟨by decide,
    merge_commutative_monoid.2.2.2.2
      [(Location.mk 1, Link.mk "a"), (Location.mk 2, Link.mk "b")]
      [(Location.mk 2, Link.mk "b"), (Location.mk 1, Link.mk "a")]
      [(fun _ _ => ValidationResult.Ignored : Verifier)] (fun _ => none)
      (by decide)⟩

/-- The verifier chain with abrupt termination made explicit: every
operation of the loop is total, so each arm yields `Except.ok`; an
abrupt (panicking) step would surface as `Except.error`. -/
def verifyChainE (link : Link) (cache : Cache) :
    List Verifier → Except String ValidationResult
  | [] => Except.ok ValidationResult.Unsupported
  | v :: rest =>
    match v.verify link cache with
    | ValidationResult.Unsupported => verifyChainE link cache rest
    | other => Except.ok other

/-- `verify_one` with abrupt termination made explicit. -/
def verify_oneE (link : Link) (verifiers : List Verifier) (cache : Cache) :
    Except String ValidationResult :=
  if (cache.is_valid link.href).getD false then
    Except.ok ValidationResult.Valid
  else verifyChainE link cache verifiers

/-- `verify` with abrupt termination made explicit: the fold propagates
any error from a dispatch or fold step. -/
def verifyE (links : List (Location × Link)) (verifiers : List Verifier)
    (cache : Cache) : Except String Outcome :=
  links.foldlM
    (fun o p =>
      (verify_oneE p.2 verifiers cache).map
        (fun r => o.with_result p.1 p.2 r))
    Outcome.default

theorem verifyChainE_ok (link : Link) (cache : Cache) (vs : List Verifier) :
    verifyChainE link cache vs = Except.ok (verifyChain link cache vs) := by
  induction vs with
  | nil => rfl
  | cons v rest ih =>
    simp only [verifyChainE, verifyChain]
    cases h : v.verify link cache <;> simp [ih]

theorem verify_oneE_ok (link : Link) (vs : List Verifier) (cache : Cache) :
    verify_oneE link vs cache = Except.ok (verify_one link vs cache) := by
  unfold verify_oneE verify_one
  by_cases h : (cache.is_valid link.href).getD false = true
  · simp [h]
  · simp [h, verifyChainE_ok]

theorem verify_foldl (pairs : List (Location × Link)) (vs : List Verifier)
    (cache : Cache) :
    verify pairs vs cache =
      pairs.foldl
        (fun o p => o.with_result p.1 p.2 (verify_one p.2 vs cache))
        Outcome.default := by
  unfold verify foldChunk
  rw [List.foldl_map]
  rfl

/-- C8: no panic/abort path exists in the engine: with every collaborator
a total function honoring its contract, `verify` terminates normally —
the error-propagating mirror of the whole pipeline returns `Except.ok`
of the Outcome computed by `verify`, for every input. -/
theorem no_panic (pairs : List (Location × Link)) (vs : List Verifier)
    (cache : Cache) :
    verifyE pairs vs cache = Except.ok (verify pairs vs cache) := by
  rw [verify_foldl]
  have key : ∀ (l : List (Location × Link)) (acc : Outcome),
      l.foldlM
          (fun o p =>
            (verify_oneE p.2 vs cache).map (fun r => o.with_result p.1 p.2 r))
          acc =
        Except.ok
          (l.foldl (fun o p => o.with_result p.1 p.2 (verify_one p.2 vs cache))
            acc) := by
    intro l
    induction l with
    | nil => intro acc; rfl
    | cons p rest ih =>
      intro acc
      rw [List.foldlM_cons, List.foldl_cons, verify_oneE_ok]
      simpa using ih (acc.with_result p.1 p.2 (verify_one p.2 vs cache))
  exact key pairs Outcome.default

/-- C10: on the empty input sequence `verify` returns the default
(empty) Outcome; the instrumented run performs zero cache lookups, zero
verifier invocations and zero fold steps, and the scheduled run with no
chunks performs no merge and yields the default Outcome. -/
theorem empty_input (vs : List Verifier) (cache : Cache) :
    verify [] vs cache = Outcome.default ∧
      verifyInstr [] vs cache = (Outcome.default, 0, 0, 0) ∧
      verifyScheduled [] vs cache = Outcome.default :=
  ⟨rfl, rfl, rfl⟩

end Linkcheck
